import Mathlib

/-!
Verification development for the tumb-au-clean publishing scripts.

The scripts are a content pipeline: a generator writes staged posts into a
tabular pending queue, and publisher scripts select due entries, publish them
over HTTP, rewrite the queue, and append audit rows to a posted log.

This file gives a shallow embedding of the components the claims depend on:

 * the queue row model and the due-entry selection loop of
   post_to_tumblr_oauth2_improved.py main (lines 377-465);
 * the publish call post_to_tumblr with its one-shot 401 refresh and retry
   (lines 196-254);
 * the credential resolver get_access_token, refresh_access_token and
   exchange_code_for_token (lines 36-169);
 * the audit row constructed by log_posted_content (lines 290-313) and its
   content truncation, plus the truncation used by the OAuth1 and plain
   OAuth2 variants;
 * the percent-encoding of the OAuth 1.0a signature base string, both the
   variant of get_tumblr_oauth_tokens.py (urllib quote with safe set to the
   empty string, applied to values only) and the variant of post_to_tumblr.py
   (urllib quote with the default safe containing the slash, applied to keys
   and values);
 * the tag comma-join of generate_tumblr_posts.save_to_pending_posts and the
   comma-split used when the publisher reads an entry back.

HTTP responses, the token file on disk and the clock are inputs of the
embedded functions; file writes are modeled as returned values.
-/

/-- Python str.lower, restricted to the ASCII data these scripts handle. -/
def pyLower (s : String) : String := ⟨s.data.map Char.toLower⟩

/-- Decimal digit character for the given value modulo ten. -/
def digitChar (n : Nat) : Char := Char.ofNat (48 + n % 10)

/-- Mixed-radix encoding of a date-time; strictly monotone in the
lexicographic component order, so Nat comparison of codes agrees with
datetime comparison. -/
def encodeDT (y mo d h mi se : Nat) : Nat :=
  ((((y * 12 + (mo - 1)) * 31 + (d - 1)) * 24 + h) * 60 + mi) * 60 + se

/-- The leading run of decimal digits, as values, and the remaining
characters. -/
def digitRun : List Char → List Nat × List Char
  | [] => ([], [])
  | c :: cs =>
    if c.isDigit then
      let r := digitRun cs
      ((c.toNat - 48) :: r.1, r.2)
    else ([], c :: cs)

/-- The year directive of strptime: exactly four digits. -/
def readYear (l : List Char) : Option (Nat × List Char) :=
  match digitRun l with
  | ([a, b, c, d], rest) => some (((a * 10 + b) * 10 + c) * 10 + d, rest)
  | _ => none

/-- A one-or-two-digit strptime directive followed by a non-digit.  The
directive regexes for month, day, hour, minute and second each accept a
single digit or a two-digit value of a bounded class; with the following
separator a non-digit, backtracking makes the whole digit run decisive: a
run of one or two digits whose value lies in the class matches, anything
else fails.  The bounds lo and hi give the net accepted values, the
constructor validation of the seconds directive folded in (its regex also
matches 60 and 61, which the datetime constructor then rejects with the
same ValueError). -/
def readComp (lo hi : Nat) (l : List Char) : Option (Nat × List Char) :=
  match digitRun l with
  | ([a], rest) => if lo ≤ a ∧ a ≤ hi then some (a, rest) else none
  | ([a, b], rest) =>
    if lo ≤ a * 10 + b ∧ a * 10 + b ≤ hi then some (a * 10 + b, rest) else none
  | _ => none

/-- A literal character of the strptime format. -/
def expectChar (c : Char) (l : List Char) : Option (List Char) :=
  match l with
  | x :: rest => if x = c then some rest else none
  | [] => none

/-- The whitespace class of the Python regex engine, ASCII part. -/
def isPySpace (c : Char) : Bool :=
  c = ' ' ∨ c = '\t' ∨ c = '\n' ∨ c = '\r' ∨ c.toNat = 11 ∨ c.toNat = 12

/-- Whitespace in a strptime format matches one or more whitespace
characters of the data. -/
def expectSpaces (l : List Char) : Option (List Char) :=
  match l with
  | c :: rest =>
    if isPySpace c then some (rest.dropWhile isPySpace) else none
  | [] => none

/-- Gregorian leap year, as the datetime constructor validates days. -/
def isLeap (y : Nat) : Bool :=
  y % 4 = 0 && (y % 100 ≠ 0 || y % 400 = 0)

/-- Length of a month, as the datetime constructor validates days. -/
def daysInMonth (y mo : Nat) : Nat :=
  if mo = 2 then (if isLeap y then 29 else 28)
  else if mo = 4 ∨ mo = 6 ∨ mo = 9 ∨ mo = 11 then 30
  else 31

/-- Model of datetime.strptime with the fixed format used by the scripts,
"%Y-%m-%d %H:%M:%S", returning none exactly when strptime, or the datetime
constructor it calls, raises ValueError (the publisher catches that error
and skips the row).  Per the strptime regex for this format: the year is
exactly four digits; month, day, hour, minute and second are one-or-two
digit fields with values 1-12, 1-31, 0-23, 0-59 and 0-59 (the seconds
regex also admits 60 and 61, which the constructor then rejects); the
hyphens and colons are literal; the space of the format matches a run of
one or more whitespace characters; the whole string must be consumed.
The datetime constructor additionally rejects year zero and a day beyond
the length of the month.  ASCII digits and whitespace are modeled; exotic
Unicode digits are out of scope. -/
def parseDT (s : String) : Option Nat := do
  let (y, r1) ← readYear s.data
  let r2 ← expectChar '-' r1
  let (mo, r3) ← readComp 1 12 r2
  let r4 ← expectChar '-' r3
  let (d, r5) ← readComp 1 31 r4
  let r6 ← expectSpaces r5
  let (h, r7) ← readComp 0 23 r6
  let r8 ← expectChar ':' r7
  let (mi, r9) ← readComp 0 59 r8
  let r10 ← expectChar ':' r9
  let (se, r11) ← readComp 0 59 r10
  if r11 = [] ∧ 1 ≤ y ∧ d ≤ daysInMonth y mo then
    some (encodeDT y mo d h mi se)
  else none

/-- Model of datetime.strftime with format "%Y-%m-%d %H:%M:%S" on an encoded
instant: a fixed nineteen-character rendering. -/
def formatDT (n : Nat) : String :=
  let se := n % 60
  let mi := n / 60 % 60
  let h := n / 3600 % 24
  let d := n / 86400 % 31 + 1
  let mo := n / 2678400 % 12 + 1
  let y := n / 32140800
  ⟨[digitChar (y / 1000), digitChar (y / 100), digitChar (y / 10), digitChar y, '-',
    digitChar (mo / 10), digitChar mo, '-', digitChar (d / 10), digitChar d, ' ',
    digitChar (h / 10), digitChar h, ':', digitChar (mi / 10), digitChar mi, ':',
    digitChar (se / 10), digitChar se]⟩

/-- One row of data/pending_posts.csv as produced by csv.DictReader with the
header written by generate_tumblr_posts.save_to_pending_posts.  All values
are strings.  The posted column is an Option because the publisher reads it
with post.get of a default, so a missing key is meaningful there; the other
columns are read with defaults that the generator always writes. -/
structure Row where
  id : String
  url : String
  title : String
  post_content : String
  tags : String
  post_type : String
  generated_time : String
  scheduled_time : String
  posted : Option String
  posted_time : String
  tumblr_post_id : String
deriving DecidableEq, Repr

/-- The publisher reads the posted column as post.get with default the
string False. -/
def postedField (p : Row) : String := p.posted.getD "False"

/-- Model of str.split on a comma: character-level splitter matching the
Python semantics, in particular the empty string splits to a single empty
field. -/
def splitCommaChars : List Char → List (List Char)
  | [] => [[]]
  | c :: cs =>
    if c = ',' then [] :: splitCommaChars cs
    else
      match splitCommaChars cs with
      | [] => [[c]]
      | h :: t => (c :: h) :: t

/-- Model of the comma str.join of Python. -/
def joinCommaChars : List (List Char) → List Char
  | [] => []
  | [x] => x
  | x :: y :: t => x ++ ',' :: joinCommaChars (y :: t)

/-- String-level comma split. -/
def pySplitComma (s : String) : List String :=
  (splitCommaChars s.data).map fun l => ⟨l⟩

/-- String-level comma join, as used on the tags list when a row is written. -/
def pyJoinComma (l : List String) : String := ⟨joinCommaChars (l.map String.data)⟩

/-- Model of str.strip with no argument: drop leading and trailing
whitespace characters. -/
def pyStrip (s : String) : String :=
  ⟨(((s.data.dropWhile Char.isWhitespace).reverse.dropWhile
      Char.isWhitespace).reverse)⟩

/-- Tag parsing of the improved publisher main, lines 419-420: split the tags
field on commas when it is non-empty, strip each tag, drop empty results. -/
def parseTags (s : String) : List String :=
  if s = "" then []
  else ((pySplitComma s).map pyStrip).filter fun t => t ≠ ""

/-- Due-entry test of the selection loop, lines 381-389: the posted field
lowercased must be exactly the string false, and the scheduled_time must
parse and be at or before the current time.  A row whose scheduled_time does
not parse is skipped with a warning. -/
def isDue (now : Nat) (p : Row) : Bool :=
  pyLower (postedField p) = "false" &&
    match parseDT p.scheduled_time with
    | some t => t ≤ now
    | none => false

/-- The list posts_to_publish built by the selection loop. -/
def selectDue (posts : List Row) (now : Nat) : List Row :=
  posts.filter (isDue now)

/-- Model of read_pending_posts, lines 256-272: a missing file is the empty
queue; otherwise csv.DictReader yields every data row of the file in order,
dropping none of them. -/
def read_pending_posts (file : Option (List Row)) : List Row :=
  match file with
  | none => []
  | some rows => rows

/-- Outcome of parsing the expires_at field of the token file.  The code
reads it as token_data.get of the key with default the string 2000-01-01 and
feeds it to datetime.fromisoformat: a missing key parses as the year-2000
instant, a malformed value raises and sends control to the exception path. -/
inductive ExpiryField where
  | missing : ExpiryField
  | malformed : ExpiryField
  | valid : Int → ExpiryField
deriving DecidableEq, Repr

/-- The instant 2000-01-01T00:00:00 on the token time axis (seconds). -/
def epoch2000 : Int := 946684800

/-- Value of the expires_at field on the non-exception paths. -/
def expiryValue (f : ExpiryField) : Int :=
  match f with
  | .missing => epoch2000
  | .malformed => 0
  | .valid t => t

/-- The persisted token file data/tumblr_token.json.  access_token is an
Option because reading token_data of that key raises KeyError when absent. -/
structure TokenFileData where
  access_token : Option String
  refresh_token : Option String
  expires_at : ExpiryField
deriving DecidableEq, Repr

/-- Body of a 200 response from the token endpoint.  expires_in is the raw
integer of the JSON body, read with default 3600; the access_token key is
required by the code.  A non-200 response or a transport error is modeled
as the absence of this value. -/
structure TokenResp where
  access_token : String
  refresh_token : Option String
  expires_in : Option Int
deriving DecidableEq, Repr

/-- Model of TumblrOAuth2Poster.refresh_access_token (improved, lines
70-118): on a 200 response compute expires_at as now plus the reported
expires_in (default 3600), persist the new record carrying the old refresh
token forward when the response omits one, and return the new access token;
otherwise return none and leave the file untouched. -/
def refresh_access_token (now : Int) (rt : String) (resp : Option TokenResp) :
    Option (String × TokenFileData) :=
  match resp with
  | none => none
  | some t =>
    let ei := t.expires_in.getD 3600
    some (t.access_token,
      { access_token := some t.access_token,
        refresh_token := some (t.refresh_token.getD rt),
        expires_at := .valid (now + ei) })

/-- Model of TumblrOAuth2Poster.exchange_code_for_token (improved, lines
120-169): like refresh, but with the authorization-code grant and without
carrying a refresh token forward. -/
def exchange_code_for_token (now : Int) (resp : Option TokenResp) :
    Option (String × TokenFileData) :=
  match resp with
  | none => none
  | some t =>
    let ei := t.expires_in.getD 3600
    some (t.access_token,
      { access_token := some t.access_token,
        refresh_token := t.refresh_token,
        expires_at := .valid (now + ei) })

/-- Result of credential resolution: the returned token, the token file
after the call, and whether the token was returned unchanged from the
stored file. -/
structure ResolveResult where
  token : Option String
  persisted : Option TokenFileData
  fromStored : Bool
deriving DecidableEq, Repr

/-- The tail of TumblrOAuth2Poster.get_access_token (improved, lines
60-68): when no usable stored or refreshed token was found, exchange an
authorization code from the environment if one is present, else return no
credential. -/
def resolveViaAuthCode (now : Int) (tokenFile : Option TokenFileData)
    (authCode : Option String) (exchangeResp : Option TokenResp) : ResolveResult :=
  match authCode with
  | some _ =>
    match exchange_code_for_token now exchangeResp with
    | some (tok, tf) => ⟨some tok, some tf, false⟩
    | none => ⟨none, tokenFile, false⟩
  | none => ⟨none, tokenFile, false⟩

/-- Model of TumblrOAuth2Poster.get_access_token (improved, lines 36-68).
When a token file exists and its expires_at is more than one hour past now,
the stored access token is returned unchanged.  Otherwise a present refresh
token is exchanged; on failure, or when the file is absent, malformed, or
missing required keys, an authorization code from the environment is
exchanged; with no code the resolver returns no credential.  The inputs
refreshResp and exchangeResp are the token-endpoint responses the two
exchanges would observe. -/
def get_access_token (now : Int) (tokenFile : Option TokenFileData)
    (refreshResp : Option TokenResp) (authCode : Option String)
    (exchangeResp : Option TokenResp) : ResolveResult :=
  let fallback : ResolveResult :=
    resolveViaAuthCode now tokenFile authCode exchangeResp
  match tokenFile with
  | none => fallback
  | some d =>
    match d.expires_at with
    | .malformed => fallback
    | f =>
      if expiryValue f > now + 3600 then
        match d.access_token with
        | some tok => ⟨some tok, tokenFile, true⟩
        | none => fallback
      else
        match d.refresh_token with
        | some rt =>
          match refresh_access_token now rt refreshResp with
          | some (tok, tf) => ⟨some tok, some tf, false⟩
          | none => fallback
        | none => fallback

/-- An HTTP response of the posts endpoint: its status code, the value of
response.id in the JSON body when present, and the body text used in error
messages. -/
structure Resp where
  status : Nat
  postId : Option String
  body : String
deriving DecidableEq, Repr

/-- Extraction of the remote post id from a response body, modeling
result.get of response then of id with default the empty string. -/
def extractId (r : Resp) : String := r.postId.getD ""

/-- Error string built from a response, modeling the f-string API Error of
the status code and the first 200 characters of the body. -/
def apiError (r : Resp) : String :=
  "API Error: " ++ toString r.status ++ " - " ++ ⟨r.body.data.take 200⟩

/-- Environment one call of post_to_tumblr observes: the response to the
first publish request, the token file found on disk during the 401 branch,
the token-endpoint response a refresh would observe, the response to a
retried publish request, and the token-axis clock. -/
structure PostEnv where
  firstResp : Resp
  tokenFile : Option TokenFileData
  refreshResp : Option TokenResp
  retryResp : Resp
  tokenNow : Int

/-- Outcome of one post_to_tumblr call: the returned pair of the success
flag and the id-or-error string, plus instrumentation of how many publish
requests and refresh attempts the call issued, and the access token held
afterwards. -/
structure PostOutcome where
  ok : Bool
  result : String
  publishAttempts : Nat
  refreshAttempts : Nat
  finalToken : Option String
deriving DecidableEq, Repr

/-- The outbound text body, content with the source URL appended. -/
def buildPostText (content sourceUrl : String) : String :=
  content ++ "\n\nSource: " ++ sourceUrl

/-- Model of TumblrOAuth2Poster.post_to_tumblr (improved, lines 196-254).
With no access token the call fails immediately.  A 201 response succeeds
with the extracted id.  A 401 response triggers at most one refresh, read
from the token file, and on a fresh token exactly one retried request,
succeeding on 201; every other path fails with the API error of the last
response observed.  Other statuses fail without refresh or retry. -/
def post_to_tumblr (accessToken : Option String) (content : String)
    (tags : List String) (sourceUrl : String) (e : PostEnv) : PostOutcome :=
  match accessToken with
  | none => ⟨false, "No valid access token", 0, 0, none⟩
  | some tok =>
    let _payload := (buildPostText content sourceUrl, tags)
    let r1 := e.firstResp
    if r1.status = 201 then ⟨true, extractId r1, 1, 0, some tok⟩
    else if r1.status = 401 then
      match e.tokenFile with
      | some tf =>
        match tf.refresh_token with
        | some rt =>
          match refresh_access_token e.tokenNow rt e.refreshResp with
          | some (ntok, _) =>
            let r2 := e.retryResp
            if r2.status = 201 then ⟨true, extractId r2, 2, 1, some ntok⟩
            else ⟨false, apiError r2, 2, 1, some ntok⟩
          | none => ⟨false, apiError r1, 1, 1, some tok⟩
        | none => ⟨false, apiError r1, 1, 0, some tok⟩
      | none => ⟨false, apiError r1, 1, 0, some tok⟩
    else ⟨false, apiError r1, 1, 0, some tok⟩

/-- Truncation used by log_posted_content in the improved publisher, line
306: first 100 characters, with an ellipsis appended only when the content
exceeds 100 characters. -/
def logContentImproved (s : String) : String :=
  ⟨s.data.take 100⟩ ++ (if 100 < s.data.length then "..." else "")

/-- Truncation used by log_posted_content in post_to_tumblr.py line 156 and
post_to_tumblr_oauth2.py line 256: first 100 characters with an ellipsis
always appended. -/
def logContentOauth1 (s : String) : String :=
  ⟨s.data.take 100⟩ ++ "..."

/-- One appended row of data/posted_logs.csv. -/
structure AuditRecord where
  id : String
  url : String
  post_content : String
  tags : String
  scheduled_time : String
  actual_posted_time : String
  success : Bool
  tumblr_post_id : String
  error : String
deriving DecidableEq, Repr

/-- Model of log_posted_content in the improved publisher, lines 290-313:
the appended row, with tumblr_post_id and error defaulting to the empty
string when absent, content truncated, and the actual posted time stamped
from the clock. -/
def log_posted_content (p : Row) (now : Nat) (success : Bool)
    (tumblr_post_id : Option String) (error : Option String) : AuditRecord :=
  { id := p.id
    url := p.url
    post_content := logContentImproved p.post_content
    tags := p.tags
    scheduled_time := p.scheduled_time
    actual_posted_time := formatDT now
    success := success
    tumblr_post_id := (tumblr_post_id.getD "")
    error := (error.getD "") }

/-- The in-place mutation of a successfully published row, improved main
lines 431-433: posted set to the string True, posted_time stamped, and the
remote id stored. -/
def markPosted (p : Row) (now : Nat) (tid : String) : Row :=
  { p with posted := some "True", posted_time := formatDT now,
           tumblr_post_id := tid }

/-- The publishing loop of improved main, lines 413-462, as a walk over the
whole pending list: due rows are published with successive environments and
mutated or logged according to the outcome, other rows pass through
untouched.  Returns the updated queue, the audit rows appended in order, and
the success and failure counters. -/
def runLoop (tok : String) (now : Nat) (env : Nat → PostEnv) :
    List Row → Nat → List Row × List AuditRecord × Nat × Nat
  | [], _ => ([], [], 0, 0)
  | p :: rest, k =>
    if isDue now p then
      let out := post_to_tumblr (some tok) p.post_content (parseTags p.tags)
        p.url (env k)
      let (q, a, s, f) := runLoop tok now env rest (k + 1)
      if out.ok then
        (markPosted p now out.result :: q,
         log_posted_content p now true (some out.result) none :: a, s + 1, f)
      else
        (p :: q, log_posted_content p now false none (some out.result) :: a,
         s, f + 1)
    else
      let (q, a, s, f) := runLoop tok now env rest k
      (p :: q, a, s, f)

/-- Result of one publishing run: the pending queue as left on disk, the
audit rows appended, the success and failure counts of the report, and
whether update_pending_posts rewrote the queue file. -/
structure RunResult where
  queue : List Row
  audits : List AuditRecord
  successCount : Nat
  failedCount : Nat
  wroteQueue : Bool
deriving Repr

/-- Model of improved main, lines 348-568.  With no resolved access token,
or a failed API connection test, or an empty queue, or no due entry, main
returns before the publishing loop and before update_pending_posts; the
queue file is left as read and nothing is appended to the posted log.
Otherwise every due row is processed in order and the full queue is
rewritten once at the end. -/
def runMain (accessToken : Option String) (apiOk : Bool) (pending : List Row)
    (now : Nat) (env : Nat → PostEnv) : RunResult :=
  match accessToken with
  | none => ⟨pending, [], 0, 0, false⟩
  | some tok =>
    if apiOk = false then ⟨pending, [], 0, 0, false⟩
    else if pending = [] then ⟨pending, [], 0, 0, false⟩
    else if selectDue pending now = [] then ⟨pending, [], 0, 0, false⟩
    else
      let (q, a, s, f) := runLoop tok now env pending 0
      ⟨q, a, s, f, true⟩

/-- One generated post as held by generate_tumblr_posts.main before saving:
the source URL, the derived title, the generated content, and the tag list. -/
structure GenPost where
  url : String
  title : String
  content : String
  tags : List String
deriving DecidableEq, Repr

/-- Model of one row written by generate_tumblr_posts.save_to_pending_posts,
lines 79-104: the tags are comma-joined into a single field, post_type is
the string text, posted is the string False, and posted_time and
tumblr_post_id start empty. -/
def save_to_pending_posts_row (p : GenPost) (post_id generated scheduled : String) : Row :=
  { id := post_id
    url := p.url
    title := p.title
    post_content := p.content
    tags := pyJoinComma p.tags
    post_type := "text"
    generated_time := generated
    scheduled_time := scheduled
    posted := some "False"
    posted_time := ""
    tumblr_post_id := "" }

/-- The entry as the publisher reconstructs it from a stored row: the url,
title and content fields read back directly, and the tags field split and
stripped by the selection code of improved main, lines 419-420. -/
def readEntry (r : Row) : GenPost :=
  { url := r.url, title := r.title, content := r.post_content,
    tags := parseTags r.tags }

/-- The characters urllib.parse.quote never encodes: ASCII letters, digits,
and the four unreserved marks hyphen, period, underscore, tilde, as bytes. -/
def isUnreservedByte (b : Nat) : Bool :=
  (65 ≤ b && b ≤ 90) || (97 ≤ b && b ≤ 122) || (48 ≤ b && b ≤ 57) ||
    b == 45 || b == 46 || b == 95 || b == 126

/-- Uppercase hexadecimal digit, as used by percent-encoding. -/
def hexDigitChar (n : Nat) : Char :=
  if n < 10 then Char.ofNat (48 + n) else Char.ofNat (55 + n)

/-- UTF-8 encoding of one character, as urllib.parse.quote encodes its
input before percent-encoding byte by byte. -/
def utf8Bytes (c : Char) : List Nat :=
  let v := c.toNat
  if v < 128 then [v]
  else if v < 2048 then [192 + v / 64, 128 + v % 64]
  else if v < 65536 then [224 + v / 4096, 128 + v / 64 % 64, 128 + v % 64]
  else [240 + v / 262144, 128 + v / 4096 % 64, 128 + v / 64 % 64, 128 + v % 64]

/-- Percent-encoding of one byte under a safe set: kept verbatim when always
safe or when listed safe and ASCII, otherwise a percent escape with two
uppercase hexadecimal digits. -/
def quoteByte (safe : List Char) (b : Nat) : List Char :=
  if isUnreservedByte b || (b < 128 && safe.contains (Char.ofNat b)) then
    [Char.ofNat b]
  else
    ['%', hexDigitChar (b / 16), hexDigitChar (b % 16)]

/-- Model of urllib.parse.quote with an explicit safe string.  The default
of Python is a safe string holding exactly the slash. -/
def pyQuote (safe : String) (s : String) : String :=
  ⟨(s.data.flatMap utf8Bytes).flatMap (quoteByte safe.data)⟩

/-- Python string comparison, lexicographic on code points. -/
def strLtChars : List Char → List Char → Bool
  | [], [] => false
  | [], _ :: _ => true
  | _ :: _, [] => false
  | a :: as, b :: bs =>
    if a.toNat < b.toNat then true
    else if b.toNat < a.toNat then false
    else strLtChars as bs

/-- Strict less-than on strings as Python compares them. -/
def pyStrLt (a b : String) : Bool := strLtChars a.data b.data

/-- Ascending comparison on key-value pairs as Python sorted orders tuples
of strings: by key, ties by value. -/
def kvLe (a b : String × String) : Bool :=
  pyStrLt a.1 b.1 || (a.1 == b.1 && !(pyStrLt b.2 a.2))

/-- Stable ascending insertion under kvLe. -/
def insertKV (x : String × String) :
    List (String × String) → List (String × String)
  | [] => [x]
  | y :: ys => if kvLe x y then x :: y :: ys else y :: insertKV x ys

/-- Python sorted over the items of the merged parameter dict: a stable
ascending sort. -/
def sortKV (params : List (String × String)) : List (String × String) :=
  params.foldr insertKV []

/-- Parameter string of TumblrOAuthHelper.create_oauth_signature,
get_tumblr_oauth_tokens.py line 27: sorted pairs joined with ampersands,
each VALUE encoded by quote with an empty safe string, each KEY inserted
verbatim. -/
def helperParamString (params : List (String × String)) : String :=
  String.intercalate "&"
    ((sortKV params).map fun kv => kv.1 ++ "=" ++ pyQuote "" kv.2)

/-- Signature base string of TumblrOAuthHelper.create_oauth_signature,
line 30: method, encoded URL and encoded parameter string joined with
ampersands, quote called with an empty safe string. -/
def helperSignatureBase (method url : String) (params : List (String × String)) : String :=
  method ++ "&" ++ pyQuote "" url ++ "&" ++ pyQuote "" (helperParamString params)

/-- Signing key of TumblrOAuthHelper.create_oauth_signature, line 33. -/
def helperSigningKey (consumerSecret tokenSecret : String) : String :=
  pyQuote "" consumerSecret ++ "&" ++ pyQuote "" tokenSecret

/-- Parameter string of TumblrPoster.create_oauth_header,
post_to_tumblr.py line 55: sorted pairs joined with ampersands, each key and
each value encoded by quote with the DEFAULT safe string, which keeps the
slash verbatim. -/
def headerParamString (params : List (String × String)) : String :=
  String.intercalate "&"
    ((sortKV params).map fun kv => pyQuote "/" kv.1 ++ "=" ++ pyQuote "/" kv.2)

/-- Signature base string of TumblrPoster.create_oauth_header, line 58,
quote again called with its default safe string. -/
def headerSignatureBase (method url : String) (params : List (String × String)) : String :=
  method ++ "&" ++ pyQuote "/" url ++ "&" ++ pyQuote "/" (headerParamString params)

/-- Signing key of TumblrPoster.create_oauth_header, line 61. -/
def headerSigningKey (consumerSecret tokenSecret : String) : String :=
  pyQuote "/" consumerSecret ++ "&" ++ pyQuote "/" tokenSecret

/-- The published-iff-identified invariant of a queue row: the posted field
is exactly the string True exactly when the remote post id is non-empty and
the posted time is set. -/
def rowInvB (r : Row) : Bool :=
  (postedField r == "True") == (r.tumblr_post_id != "" && r.posted_time != "")

/-- A response is well identified when a created status carries a non-empty
id in its body. -/
def goodRespB (r : Resp) : Bool := r.status != 201 || extractId r != ""

/-- An environment whose success responses all carry non-empty ids. -/
def goodEnvB (e : PostEnv) : Bool := goodRespB e.firstResp && goodRespB e.retryResp

/-- A queue row staged for 2020-01-01 00:00:00 and not yet posted. -/
def exampleRow : Row :=
  { id := "post_20191231_120000_001"
    url := "https://example.com/articles/10"
    title := "Example Title"
    post_content := "Generated body."
    tags := "alpha,beta"
    post_type := "text"
    generated_time := "2019-12-31 12:00:00"
    scheduled_time := "2020-01-01 00:00:00"
    posted := some "False"
    posted_time := ""
    tumblr_post_id := "" }

/-- The encoded instant of 2020-01-01 00:00:00, at which exampleRow is due. -/
def exampleNow : Nat := 64924416000

/-- An environment whose first publish response is a success whose JSON body
carries no id field. -/
def envSuccessNoId : PostEnv :=
  { firstResp := ⟨201, none, ""⟩
    tokenFile := none
    refreshResp := none
    retryResp := ⟨500, none, ""⟩
    tokenNow := 0 }

/-- An environment whose first publish response is a success carrying the
id 12345. -/
def envSuccessId : PostEnv :=
  { firstResp := ⟨201, some "12345", ""⟩
    tokenFile := none
    refreshResp := none
    retryResp := ⟨500, none, ""⟩
    tokenNow := 0 }

/-- An environment producing a 401 on the first publish request, a token
file holding a refresh token, a successful refresh, and a success with id
67890 on the retried request. -/
def env401ThenSuccess : PostEnv :=
  { firstResp := ⟨401, none, "unauthorized"⟩
    tokenFile := some ⟨some "old-token", some "refresh-1", .valid 0⟩
    refreshResp := some ⟨"fresh-token", some "refresh-2", some 3600⟩
    retryResp := ⟨201, some "67890", ""⟩
    tokenNow := 1000 }

/-- A queue row whose posted field holds a malformed value, with a past
scheduled time. -/
def rowWeirdPosted : Row :=
  { exampleRow with id := "post_weird", posted := some "maybe" }

/-- A persisted token record whose expiry is the epoch instant zero, long
past. -/
def staleTokenFile : TokenFileData :=
  ⟨some "old-token", some "refresh-1", .valid 0⟩

/-- A token-endpoint response reporting a negative expires_in. -/
def negExpiryResp : TokenResp := ⟨"new-token", none, some (-10)⟩

/-- A persisted token record expiring far in the future of instant zero. -/
def freshTokenFile : TokenFileData :=
  ⟨some "stored-token", none, .valid 999999⟩

lemma parseDT_accepts_unpadded :
    parseDT "2020-1-1 0:0:0" = some (encodeDT 2020 1 1 0 0 0) := by
  decide

lemma parseDT_rejects_invalid_calendar_day :
    parseDT "2020-02-30 00:00:00" = none := by
  decide

lemma formatDT_ne_empty (n : Nat) : formatDT n ≠ "" := by
  intro h
  have h2 := congrArg String.data h
  simp [formatDT] at h2

lemma isDue_markPosted (now n2 : Nat) (tid : String) (p : Row) :
    isDue now (markPosted p n2 tid) = false := by
  have h : (pyLower (postedField (markPosted p n2 tid)) = "false") = False := by
    simp only [markPosted, postedField, Option.getD_some]
    decide
  simp [isDue, h]

lemma post_ok_cases (t content u : String) (tags : List String) (e : PostEnv)
    (hok : (post_to_tumblr (some t) content tags u e).ok = true) :
    (e.firstResp.status = 201 ∧
      (post_to_tumblr (some t) content tags u e).result = extractId e.firstResp) ∨
    (e.retryResp.status = 201 ∧
      (post_to_tumblr (some t) content tags u e).result = extractId e.retryResp) := by
  revert hok
  unfold post_to_tumblr
  by_cases h1 : e.firstResp.status = 201
  · simp [h1]
  · by_cases h2 : e.firstResp.status = 401
    · rcases htf : e.tokenFile with _ | tf
      · simp [h1, h2, htf]
      · rcases hrt : tf.refresh_token with _ | rt
        · simp [h1, h2, htf, hrt]
        · rcases hr : refresh_access_token e.tokenNow rt e.refreshResp with _ | ⟨ntok, nf⟩
          · simp [h1, h2, htf, hrt, hr]
          · by_cases h3 : e.retryResp.status = 201
            · simp [h1, h2, htf, hrt, hr, h3]
            · simp [h1, h2, htf, hrt, hr, h3]
    · simp [h1, h2]

lemma post_ok_result_ne_empty (t content u : String) (tags : List String)
    (e : PostEnv) (hg : goodEnvB e = true)
    (hok : (post_to_tumblr (some t) content tags u e).ok = true) :
    (post_to_tumblr (some t) content tags u e).result ≠ "" := by
  have hg1 : goodRespB e.firstResp = true := by
    have := hg
    simp [goodEnvB] at this
    exact this.1
  have hg2 : goodRespB e.retryResp = true := by
    have := hg
    simp [goodEnvB] at this
    exact this.2
  rcases post_ok_cases t content u tags e hok with ⟨hs, hr⟩ | ⟨hs, hr⟩
  · rw [hr]
    simp [goodRespB, hs] at hg1
    simpa using hg1
  · rw [hr]
    simp [goodRespB, hs] at hg2
    simpa using hg2

lemma post_attempt_bounds (t content u : String) (tags : List String) (e : PostEnv) :
    (post_to_tumblr (some t) content tags u e).publishAttempts ≤ 2 ∧
      (post_to_tumblr (some t) content tags u e).refreshAttempts ≤ 1 := by
  unfold post_to_tumblr
  by_cases h1 : e.firstResp.status = 201
  · simp [h1]
  · by_cases h2 : e.firstResp.status = 401
    · rcases htf : e.tokenFile with _ | tf
      · simp [h1, h2, htf]
      · rcases hrt : tf.refresh_token with _ | rt
        · simp [h1, h2, htf, hrt]
        · rcases hr : refresh_access_token e.tokenNow rt e.refreshResp with _ | ⟨ntok, nf⟩
          · simp [h1, h2, htf, hrt, hr]
          · by_cases h3 : e.retryResp.status = 201
            · simp [h1, h2, htf, hrt, hr, h3]
            · simp [h1, h2, htf, hrt, hr, h3]
    · simp [h1, h2]

lemma runLoop_queue_cons_due (tok : String) (now : Nat) (env : Nat → PostEnv)
    (p : Row) (rest : List Row) (k : Nat) (hd : isDue now p = true) :
    runLoop tok now env (p :: rest) k =
      (let out := post_to_tumblr (some tok) p.post_content (parseTags p.tags)
        p.url (env k)
       let r := runLoop tok now env rest (k + 1)
       if out.ok then
        (markPosted p now out.result :: r.1,
         log_posted_content p now true (some out.result) none :: r.2.1,
         r.2.2.1 + 1, r.2.2.2)
       else
        (p :: r.1, log_posted_content p now false none (some out.result) :: r.2.1,
         r.2.2.1, r.2.2.2 + 1)) := by
  simp only [runLoop, hd, if_true]

lemma runLoop_queue_cons_not_due (tok : String) (now : Nat) (env : Nat → PostEnv)
    (p : Row) (rest : List Row) (k : Nat) (hd : isDue now p = false) :
    runLoop tok now env (p :: rest) k =
      (let r := runLoop tok now env rest k
       (p :: r.1, r.2.1, r.2.2.1, r.2.2.2)) := by
  simp only [runLoop, hd, Bool.false_eq_true, if_false]

lemma selectDue_runLoop (tok : String) (now : Nat) (env : Nat → PostEnv)
    (hsucc : ∀ k, (env k).firstResp.status = 201) :
    ∀ (l : List Row) (k : Nat), selectDue (runLoop tok now env l k).1 now = [] := by
  intro l
  induction l with
  | nil => intro k; rfl
  | cons p rest ih =>
    intro k
    by_cases hd : isDue now p
    · have hok : (post_to_tumblr (some tok) p.post_content (parseTags p.tags)
          p.url (env k)).ok = true := by
        have h1 := hsucc k
        unfold post_to_tumblr
        simp [h1]
      rw [runLoop_queue_cons_due tok now env p rest k hd]
      simp only [hok, if_true]
      simp only [selectDue, List.filter_cons, isDue_markPosted]
      exact ih (k + 1)
    · rw [runLoop_queue_cons_not_due tok now env p rest k (by simpa using hd)]
      simp only [selectDue, List.filter_cons]
      rw [if_neg hd]
      exact ih k

lemma runLoop_getElem_not_due (tok : String) (now : Nat) (env : Nat → PostEnv) :
    ∀ (l : List Row) (k i : Nat) (p : Row), l.get? i = some p →
      isDue now p = false → (runLoop tok now env l k).1.get? i = some p := by
  intro l
  induction l with
  | nil => intro k i p h; simp at h
  | cons q rest ih =>
    intro k i p hget hp
    cases i with
    | zero =>
      simp at hget
      subst hget
      by_cases hd : isDue now q
      · rw [hd] at hp; cases hp
      · rw [runLoop_queue_cons_not_due tok now env q rest k (by simpa using hd)]
        simp
    | succ i =>
      simp at hget
      by_cases hd : isDue now q
      · rw [runLoop_queue_cons_due tok now env q rest k hd]
        by_cases hok : (post_to_tumblr (some tok) q.post_content (parseTags q.tags)
            q.url (env k)).ok
        · simp only [hok, if_true]
          simpa using ih (k + 1) i p (by simpa using hget) hp
        · simp only [Bool.eq_false_iff.mpr hok, if_false]
          simpa using ih (k + 1) i p (by simpa using hget) hp
      · rw [runLoop_queue_cons_not_due tok now env q rest k (by simpa using hd)]
        simpa using ih k i p (by simpa using hget) hp

lemma runLoop_inv (tok : String) (now : Nat) (env : Nat → PostEnv)
    (hg : ∀ k, goodEnvB (env k) = true) :
    ∀ (l : List Row) (k : Nat), (∀ r ∈ l, rowInvB r = true) →
      ∀ r ∈ (runLoop tok now env l k).1, rowInvB r = true := by
  intro l
  induction l with
  | nil => intro k hin r hr; simp [runLoop] at hr
  | cons p rest ih =>
    intro k hin r hr
    have hin_p : rowInvB p = true := hin p (by simp)
    have hin_rest : ∀ r ∈ rest, rowInvB r = true := fun r hr => hin r (by simp [hr])
    by_cases hd : isDue now p
    · rw [runLoop_queue_cons_due tok now env p rest k hd] at hr
      by_cases hok : (post_to_tumblr (some tok) p.post_content (parseTags p.tags)
          p.url (env k)).ok
      · simp only [hok, if_true] at hr
        rcases List.mem_cons.mp hr with hr | hr
        · subst hr
          have hres : (post_to_tumblr (some tok) p.post_content (parseTags p.tags)
              p.url (env k)).result ≠ "" :=
            post_ok_result_ne_empty tok p.post_content p.url (parseTags p.tags)
              (env k) (hg k) hok
          simp [rowInvB, markPosted, postedField, hres, formatDT_ne_empty now]
        · exact ih (k + 1) hin_rest r hr
      · simp only [Bool.eq_false_iff.mpr hok, if_false] at hr
        rcases List.mem_cons.mp hr with hr | hr
        · subst hr; exact hin_p
        · exact ih (k + 1) hin_rest r hr
    · rw [runLoop_queue_cons_not_due tok now env p rest k (by simpa using hd)] at hr
      rcases List.mem_cons.mp hr with hr | hr
      · subst hr; exact hin_p
      · exact ih k hin_rest r hr

lemma splitCommaChars_ne_nil (l : List Char) : splitCommaChars l ≠ [] := by
  induction l with
  | nil => simp [splitCommaChars]
  | cons c cs ih =>
    by_cases hc : c = ','
    · simp [splitCommaChars, hc]
    · simp only [splitCommaChars, if_neg hc]
      rcases h : splitCommaChars cs with _ | ⟨x, xs⟩
      · simp
      · simp

lemma splitCommaChars_no_comma (l : List Char) (h : ',' ∉ l) :
    splitCommaChars l = [l] := by
  induction l with
  | nil => rfl
  | cons c cs ih =>
    have hc : c ≠ ',' := fun hh => h (by simp [hh])
    have hcs : ',' ∉ cs := fun hh => h (by simp [hh])
    simp only [splitCommaChars, if_neg hc, ih hcs]

lemma splitCommaChars_append (x r : List Char) (h : ',' ∉ x) :
    splitCommaChars (x ++ ',' :: r) = x :: splitCommaChars r := by
  induction x with
  | nil => simp [splitCommaChars]
  | cons c cs ih =>
    have hc : c ≠ ',' := fun hh => h (by simp [hh])
    have hcs : ',' ∉ cs := fun hh => h (by simp [hh])
    simp only [List.cons_append, splitCommaChars, if_neg hc, List.append_eq, ih hcs]

lemma splitCommaChars_joinCommaChars (l : List (List Char))
    (hne : l ≠ []) (h : ∀ x ∈ l, ',' ∉ x) :
    splitCommaChars (joinCommaChars l) = l := by
  induction l with
  | nil => cases hne rfl
  | cons x xs ih =>
    cases xs with
    | nil =>
      simp only [joinCommaChars]
      exact splitCommaChars_no_comma x (h x (by simp))
    | cons y ys =>
      have hx : ',' ∉ x := h x (by simp)
      have hrest : ∀ z ∈ y :: ys, ',' ∉ z := fun z hz => h z (by simp [hz])
      simp only [joinCommaChars]
      rw [splitCommaChars_append x _ hx, ih (by simp) hrest]

lemma string_mk_data (s : String) : (⟨s.data⟩ : String) = s := by
  cases s
  rfl

lemma joinCommaChars_cons_ne_nil (x : List Char) (xs : List (List Char))
    (h : x ≠ [] ∨ xs ≠ []) : joinCommaChars (x :: xs) ≠ [] := by
  cases xs with
  | nil =>
    simp only [joinCommaChars]
    rcases h with h | h
    · exact h
    · cases h rfl
  | cons y ys =>
    simp only [joinCommaChars]
    intro hh
    rcases List.append_eq_nil.mp hh with ⟨_, h2⟩
    cases h2

lemma parseTags_pyJoinComma (tags : List String)
    (h : ∀ t ∈ tags, ',' ∉ t.data ∧ pyStrip t = t ∧ t ≠ "") :
    parseTags (pyJoinComma tags) = tags := by
  cases tags with
  | nil => rfl
  | cons t ts =>
    have htne : t.data ≠ [] := by
      intro hh
      have := (h t (by simp)).2.2
      apply this
      have := congrArg (fun l => (⟨l⟩ : String)) hh
      simpa [string_mk_data] using this
    have hjoin_ne : pyJoinComma (t :: ts) ≠ "" := by
      intro hh
      have h2 := congrArg String.data hh
      simp only [pyJoinComma] at h2
      exact joinCommaChars_cons_ne_nil t.data (ts.map String.data)
        (Or.inl htne) h2
    have hcommas : ∀ x ∈ (t :: ts).map String.data, ',' ∉ x := by
      intro x hx
      rcases List.mem_map.mp hx with ⟨s, hs, rfl⟩
      exact (h s hs).1
    have hsplit : pySplitComma (pyJoinComma (t :: ts)) = t :: ts := by
      simp only [pySplitComma, pyJoinComma]
      rw [splitCommaChars_joinCommaChars ((t :: ts).map String.data)
        (by simp) hcommas]
      rw [List.map_map]
      have : ∀ s ∈ t :: ts, (fun l => (⟨l⟩ : String)) (String.data s) = s := by
        intro s _
        exact string_mk_data s
      calc ((t :: ts).map fun s => (⟨s.data⟩ : String))
          = (t :: ts).map id := List.map_congr_left fun s hs => string_mk_data s
        _ = t :: ts := List.map_id _
    simp only [parseTags, if_neg hjoin_ne, hsplit]
    have htrim : (t :: ts).map pyStrip = t :: ts := by
      calc (t :: ts).map pyStrip
          = (t :: ts).map id := List.map_congr_left fun s hs => (h s hs).2.1
        _ = t :: ts := List.map_id _
    rw [htrim]
    rw [List.filter_eq_self.mpr]
    intro a ha
    exact decide_eq_true ((h a ha).2.2)

/-- C9: the claim states that every audit row's post_content equals the
entry content truncated to at most 100 characters with an ellipsis
appended, and that content of 100 characters or fewer is written unchanged.
The truncation of the OAuth1 script post_to_tumblr.py line 156 (shared by
post_to_tumblr_oauth2.py line 256) appends the ellipsis unconditionally, so
a three-character content is logged changed, refuting the second half of
the claim for those publishers. -/
theorem c9_counterexample :
    logContentOauth1 "abc" = "abc..." ∧ "abc..." ≠ "abc" := by
  constructor
  · rfl
  · decide

/-- C9 amended: in the improved publisher, the audit row's post_content is
the entry content unchanged when it has at most 100 characters, and the
first 100 characters with an ellipsis appended otherwise, and this is
exactly the field log_posted_content writes; the OAuth1 and plain OAuth2
variants instead append the ellipsis to every content. -/
theorem c9_truncation :
    ∀ (s : String) (p : Row) (now : Nat) (b : Bool) (tid err : Option String),
      (s.data.length ≤ 100 → logContentImproved s = s) ∧
      (100 < s.data.length →
        logContentImproved s = (⟨s.data.take 100⟩ : String) ++ "...") ∧
      logContentOauth1 s = (⟨s.data.take 100⟩ : String) ++ "..." ∧
      (log_posted_content p now b tid err).post_content =
        logContentImproved p.post_content := by
  intro s p now b tid err
  refine ⟨?_, ?_, rfl, rfl⟩
  · intro hle
    have hnot : ¬ 100 < s.data.length := by omega
    simp only [logContentImproved, if_neg hnot]
    have htake : s.data.take 100 = s.data := List.take_of_length_le hle
    rw [htake]
    have : (⟨s.data⟩ : String) ++ "" = (⟨s.data⟩ : String) := by
      apply congrArg String.mk
      simp
    rw [this, string_mk_data]
  · intro hlt
    simp only [logContentImproved, if_pos hlt]

/-- C9 witness: instantiating the truncation theorem at a short content. -/
theorem c9_truncation_witness : logContentImproved "abc" = "abc" :=
  (c9_truncation "abc" exampleRow 0 true none none).1 (by decide)

/-- C3: the claim states that when credential resolution fails, the run
marks every due entry as failed with error NoCredential and produces a
report indicating failure for all due entries.  On the code, main returns
before even reading the queue: with one due entry and no access token, no
audit record is appended, the failure count of the report is zero, and the
queue file is not rewritten, refuting the marking and reporting halves of
the claim. -/
theorem c3_counterexample :
    selectDue [exampleRow] exampleNow = [exampleRow] ∧
    runMain none true [exampleRow] exampleNow (fun _ => envSuccessNoId) =
      ⟨[exampleRow], [], 0, 0, false⟩ := by
  constructor
  · decide
  · rfl

/-- C3 amended: when credential resolution fails, the run aborts before the
publishing loop: the queue is left exactly as read, no entry is marked
published, no audit record is appended, both report counters are zero, and
the queue file is not rewritten; and the resolver with no token file and no
authorization code indeed returns no credential. -/
theorem c3_no_credential_aborts :
    ∀ (apiOk : Bool) (pending : List Row) (now : Nat) (env : Nat → PostEnv)
      (tnow : Int) (rr er : Option TokenResp),
      (get_access_token tnow none rr none er).token = none ∧
      runMain none apiOk pending now env = ⟨pending, [], 0, 0, false⟩ :=
  fun _ _ _ _ _ _ _ => ⟨rfl, rfl⟩

/-- C6: a record whose scheduled_time does not parse never aborts the load
or empties the queue: the reader yields every row, and the selection loop
skips exactly the malformed record with a warning, selecting the well-formed
due rows around it unchanged. -/
theorem c6_malformed_rows_skipped :
    ∀ (now : Nat) (xs ys : List Row) (bad : Row),
      parseDT bad.scheduled_time = none →
      read_pending_posts (some (xs ++ bad :: ys)) = xs ++ bad :: ys ∧
      selectDue (xs ++ bad :: ys) now = selectDue xs now ++ selectDue ys now ∧
      bad ∉ selectDue (xs ++ bad :: ys) now := by
  intro now xs ys bad hbad
  have hnot : isDue now bad = false := by
    simp [isDue, hbad]
  refine ⟨rfl, ?_, ?_⟩
  · simp [selectDue, List.filter_append, List.filter_cons, hnot]
  · intro hmem
    have := (List.mem_filter.mp hmem).2
    rw [hnot] at this
    cases this

/-- C6 witness: a malformed record between two due rows is the only one
skipped. -/
theorem c6_malformed_rows_skipped_witness :
    read_pending_posts
        (some ([exampleRow] ++ { exampleRow with scheduled_time := "soon" } :: [rowWeirdPosted])) =
      [exampleRow] ++ { exampleRow with scheduled_time := "soon" } :: [rowWeirdPosted] ∧
    selectDue ([exampleRow] ++ { exampleRow with scheduled_time := "soon" } :: [rowWeirdPosted])
        exampleNow =
      selectDue [exampleRow] exampleNow ++ selectDue [rowWeirdPosted] exampleNow ∧
    { exampleRow with scheduled_time := "soon" } ∉
      selectDue ([exampleRow] ++ { exampleRow with scheduled_time := "soon" } :: [rowWeirdPosted])
        exampleNow :=
  c6_malformed_rows_skipped exampleNow [exampleRow] [rowWeirdPosted]
    { exampleRow with scheduled_time := "soon" } (by decide)

lemma runMain_noop (tok : String) (q : List Row) (now : Nat)
    (env2 : Nat → PostEnv) (hsel : selectDue q now = []) :
    runMain (some tok) true q now env2 = ⟨q, [], 0, 0, false⟩ := by
  unfold runMain
  by_cases hemp : q = []
  · simp [hemp]
  · simp [if_neg hemp, hsel]

/-- C7: after a run in which every publish call succeeded, re-running with
the same clock selects zero entries and returns before rewriting the queue
file, leaving the queue exactly as the first run left it, with an empty
report. -/
theorem c7_second_run_noop :
    ∀ (tok : String) (pending : List Row) (now : Nat) (env env2 : Nat → PostEnv),
      (∀ k, (env k).firstResp.status = 201) →
      selectDue (runMain (some tok) true pending now env).queue now = [] ∧
      runMain (some tok) true (runMain (some tok) true pending now env).queue now env2 =
        ⟨(runMain (some tok) true pending now env).queue, [], 0, 0, false⟩ := by
  intro tok pending now env env2 hsucc
  have hsel : selectDue (runMain (some tok) true pending now env).queue now = [] := by
    unfold runMain
    by_cases hemp : pending = []
    · subst hemp
      simp [selectDue]
    · simp only [if_neg hemp]
      by_cases hnone : selectDue pending now = []
      · simp only [if_pos hnone]
        simpa using hnone
      · simp only [if_neg hnone]
        simpa using selectDue_runLoop tok now env hsucc pending 0
  exact ⟨hsel, runMain_noop tok _ now env2 hsel⟩

/-- C7 witness: a one-row queue published successfully is untouched by an
immediate second run. -/
theorem c7_second_run_noop_witness :
    selectDue (runMain (some "tok") true [exampleRow] exampleNow
        fun _ => envSuccessId).queue exampleNow = [] ∧
    runMain (some "tok") true
        (runMain (some "tok") true [exampleRow] exampleNow fun _ => envSuccessId).queue
        exampleNow (fun _ => envSuccessNoId) =
      ⟨(runMain (some "tok") true [exampleRow] exampleNow fun _ => envSuccessId).queue,
       [], 0, 0, false⟩ :=
  c7_second_run_noop "tok" [exampleRow] exampleNow (fun _ => envSuccessId)
    (fun _ => envSuccessNoId) (fun _ => rfl)

/-- C8: the claim states that every entry whose tags contain no commas
round-trips through the queue store field for field.  The tag list holding
the single comma-free tag of an a followed by a space is written as that
two-character field, but reading it back strips the tag, so the entry comes
back with a different tags field, refuting the claim as stated. -/
theorem c8_counterexample :
    (',' ∉ String.data "a ") ∧
    readEntry (save_to_pending_posts_row ⟨"u", "t", "c", ["a "]⟩ "id1" "g" "s") ≠
      ⟨"u", "t", "c", ["a "]⟩ := by
  constructor
  · decide
  · decide

/-- C8 amended: an entry whose tags are all comma-free, non-empty and free
of leading and trailing whitespace round-trips through the comma-join of
save_to_pending_posts and the comma-split and strip of the publisher with
field-for-field equality. -/
theorem c8_roundtrip :
    ∀ (p : GenPost) (post_id generated scheduled : String),
      (∀ t ∈ p.tags, ',' ∉ t.data ∧ pyStrip t = t ∧ t ≠ "") →
      readEntry (save_to_pending_posts_row p post_id generated scheduled) = p := by
  intro p post_id generated scheduled h
  rcases p with ⟨u, ti, c, tags⟩
  simp only [readEntry, save_to_pending_posts_row]
  rw [parseTags_pyJoinComma tags h]

/-- C8 witness: a two-tag entry round-trips unchanged. -/
theorem c8_roundtrip_witness :
    readEntry (save_to_pending_posts_row ⟨"u", "t", "c", ["alpha", "beta"]⟩
      "id1" "g" "s") = ⟨"u", "t", "c", ["alpha", "beta"]⟩ :=
  c8_roundtrip ⟨"u", "t", "c", ["alpha", "beta"]⟩ "id1" "g" "s" (by decide)

/-- C1: the claim states that after any run an entry is marked published
exactly when it carries a non-empty remote post id and a posted time, and
in particular that a successful publish always stores a non-empty id.  On
the code the id is extracted from the success response with the empty
string as default, so a 201 response whose body lacks the id field marks
the entry published with an empty tumblr_post_id, refuting the claim. -/
theorem c1_counterexample :
    ((runMain (some "tok") true [exampleRow] exampleNow
        fun _ => envSuccessNoId).queue.all rowInvB) = false ∧
    (runMain (some "tok") true [exampleRow] exampleNow
        fun _ => envSuccessNoId).successCount = 1 := by
  constructor
  · decide
  · decide

/-- C1 amended: a run preserves the invariant that an entry is marked
published exactly when it carries a non-empty remote id and a posted time,
provided every success response of the platform carries a non-empty id and
every input entry already satisfies the invariant; the id stored on success
is exactly the one extracted from the response. -/
theorem c1_published_invariant :
    ∀ (tok : Option String) (apiOk : Bool) (pending : List Row) (now : Nat)
      (env : Nat → PostEnv),
      (∀ r ∈ pending, rowInvB r = true) →
      (∀ k, goodEnvB (env k) = true) →
      ∀ r ∈ (runMain tok apiOk pending now env).queue, rowInvB r = true := by
  intro tok apiOk pending now env hin hg r hr
  rcases tok with _ | t
  · exact hin r hr
  · revert hr
    unfold runMain
    by_cases hapi : apiOk = false
    · simp only [if_pos hapi]
      exact fun hr => hin r hr
    · simp only [if_neg hapi]
      by_cases hemp : pending = []
      · simp only [if_pos hemp]
        exact fun hr => hin r hr
      · simp only [if_neg hemp]
        by_cases hnone : selectDue pending now = []
        · simp only [if_pos hnone]
          exact fun hr => hin r hr
        · simp only [if_neg hnone]
          exact fun hr => runLoop_inv t now env hg pending 0 hin r hr

/-- C1 witness: a successfully published row satisfies the invariant after
a run over a queue that satisfied it. -/
theorem c1_published_invariant_witness :
    rowInvB (markPosted exampleRow exampleNow "12345") = true :=
  c1_published_invariant (some "tok") true [exampleRow] exampleNow
    (fun _ => envSuccessId) (by decide)
    (fun _ => (by decide : goodEnvB envSuccessId = true))
    (markPosted exampleRow exampleNow "12345") (by decide)

lemma post_scenario_refresh (t content u : String) (tags : List String)
    (e : PostEnv) (h401 : e.firstResp.status = 401) (tf : TokenFileData)
    (rt : String) (htf : e.tokenFile = some tf)
    (hrt : tf.refresh_token = some rt) (tr : TokenResp)
    (hrr : e.refreshResp = some tr) (hretry : e.retryResp.status = 201) :
    post_to_tumblr (some t) content tags u e =
      ⟨true, extractId e.retryResp, 2, 1, some tr.access_token⟩ := by
  have h1 : ¬ e.firstResp.status = 201 := by rw [h401]; decide
  unfold post_to_tumblr
  simp [h1, h401, htf, hrt, refresh_access_token, hrr, hretry]

/-- C2: every publish call issues at most two publish requests and at most
one refresh; and when the first request returns 401, the token file holds a
refresh token, the refresh succeeds and the retried request returns a
success, the call returns success with the id of the retried response after
exactly one refresh and one retry, and a run over that entry ends with the
entry marked published and exactly one audit record, a success record, with
no failure record for the initial 401. -/
theorem c2_refresh_retry_once :
    ∀ (t : String) (e : PostEnv) (p : Row) (now : Nat),
      ((post_to_tumblr (some t) p.post_content (parseTags p.tags) p.url
          e).publishAttempts ≤ 2 ∧
       (post_to_tumblr (some t) p.post_content (parseTags p.tags) p.url
          e).refreshAttempts ≤ 1) ∧
      (e.firstResp.status = 401 →
       (∃ tf rt, e.tokenFile = some tf ∧ tf.refresh_token = some rt) →
       (∃ tr, e.refreshResp = some tr) →
       e.retryResp.status = 201 →
       ((post_to_tumblr (some t) p.post_content (parseTags p.tags) p.url e).ok
          = true ∧
        (post_to_tumblr (some t) p.post_content (parseTags p.tags) p.url
          e).result = extractId e.retryResp ∧
        (post_to_tumblr (some t) p.post_content (parseTags p.tags) p.url
          e).publishAttempts = 2 ∧
        (post_to_tumblr (some t) p.post_content (parseTags p.tags) p.url
          e).refreshAttempts = 1) ∧
       (isDue now p = true →
        runMain (some t) true [p] now (fun _ => e) =
          ⟨[markPosted p now (extractId e.retryResp)],
           [log_posted_content p now true (some (extractId e.retryResp)) none],
           1, 0, true⟩)) := by
  intro t e p now
  refine ⟨post_attempt_bounds t p.post_content p.url (parseTags p.tags) e, ?_⟩
  intro h401 hfile hrr hretry
  obtain ⟨tf, rt, htf, hrt⟩ := hfile
  obtain ⟨tr, hrr⟩ := hrr
  have hout := post_scenario_refresh t p.post_content p.url (parseTags p.tags)
    e h401 tf rt htf hrt tr hrr hretry
  refine ⟨by rw [hout]; exact ⟨rfl, rfl, rfl, rfl⟩, ?_⟩
  intro hdue
  have hloop : runLoop t now (fun _ => e) [p] 0 =
      ([markPosted p now (extractId e.retryResp)],
       [log_posted_content p now true (some (extractId e.retryResp)) none],
       1, 0) := by
    rw [runLoop_queue_cons_due t now (fun _ => e) p [] 0 hdue]
    simp only [hout]
    simp [runLoop]
  have hsel : selectDue [p] now = [p] := by
    simp [selectDue, List.filter_cons, hdue]
  unfold runMain
  simp only [if_neg (by simp : ¬ ([p] : List Row) = []), hsel]
  simp [hloop]

/-- C2 witness: the 401, refresh, retry-success scenario at concrete
values. -/
theorem c2_refresh_retry_once_witness :
    ((post_to_tumblr (some "tok") exampleRow.post_content
        (parseTags exampleRow.tags) exampleRow.url env401ThenSuccess).ok = true ∧
     (post_to_tumblr (some "tok") exampleRow.post_content
        (parseTags exampleRow.tags) exampleRow.url env401ThenSuccess).result =
        extractId env401ThenSuccess.retryResp ∧
     (post_to_tumblr (some "tok") exampleRow.post_content
        (parseTags exampleRow.tags) exampleRow.url
        env401ThenSuccess).publishAttempts = 2 ∧
     (post_to_tumblr (some "tok") exampleRow.post_content
        (parseTags exampleRow.tags) exampleRow.url
        env401ThenSuccess).refreshAttempts = 1) ∧
    (isDue exampleNow exampleRow = true →
     runMain (some "tok") true [exampleRow] exampleNow
        (fun _ => env401ThenSuccess) =
       ⟨[markPosted exampleRow exampleNow
           (extractId env401ThenSuccess.retryResp)],
        [log_posted_content exampleRow exampleNow true
           (some (extractId env401ThenSuccess.retryResp)) none],
        1, 0, true⟩) :=
  (c2_refresh_retry_once "tok" env401ThenSuccess exampleRow exampleNow).2
    (by decide) ⟨_, _, rfl, rfl⟩ ⟨_, rfl⟩ (by decide)

/-- C10: an entry is selected for publishing only when its posted field,
read with the default False for a missing key and lowercased, is exactly
the string false; an entry whose posted field lowercases to anything else
is never selected and passes through any run unmodified at its position in
the queue. -/
theorem c10_posted_gate :
    ∀ (pending : List Row) (now : Nat),
      (∀ p ∈ selectDue pending now, pyLower (postedField p) = "false") ∧
      (∀ (tok : Option String) (apiOk : Bool) (env : Nat → PostEnv) (i : Nat)
         (p : Row),
        pending.get? i = some p → pyLower (postedField p) ≠ "false" →
        p ∉ selectDue pending now ∧
        (runMain tok apiOk pending now env).queue.get? i = some p) := by
  intro pending now
  constructor
  · intro p hp
    have hdue := (List.mem_filter.mp hp).2
    have := (Bool.and_eq_true _ _).mp hdue
    exact of_decide_eq_true this.1
  · intro tok apiOk env i p hget hne
    have hnotdue : isDue now p = false := by
      unfold isDue
      rw [decide_eq_false hne]
      exact Bool.false_and _
    constructor
    · intro hmem
      have := (List.mem_filter.mp hmem).2
      rw [hnotdue] at this
      cases this
    · rcases tok with _ | t
      · exact hget
      · unfold runMain
        by_cases hapi : apiOk = false
        · simp only [if_pos hapi]; exact hget
        · simp only [if_neg hapi]
          by_cases hemp : pending = []
          · simp only [if_pos hemp]; exact hget
          · simp only [if_neg hemp]
            by_cases hnone : selectDue pending now = []
            · simp only [if_pos hnone]; exact hget
            · simp only [if_neg hnone]
              exact runLoop_getElem_not_due t now env pending 0 i p hget hnotdue

/-- C10 witness: a row whose posted field holds a malformed value is not
selected and survives a run unchanged. -/
theorem c10_posted_gate_witness :
    rowWeirdPosted ∉ selectDue [rowWeirdPosted] exampleNow ∧
    (runMain (some "tok") true [rowWeirdPosted] exampleNow
        fun _ => envSuccessId).queue.get? 0 = some rowWeirdPosted :=
  (c10_posted_gate [rowWeirdPosted] exampleNow).2 (some "tok") true
    (fun _ => envSuccessId) 0 rowWeirdPosted (by decide) (by decide)

/-- C4: the claim states the resolver never returns a token whose
expires_at is in the past.  The resolver copies the expires_in integer of
the token endpoint response unvalidated: with a stale stored record and a
refresh response reporting a negative expires_in, the resolver returns the
fresh token while persisting an expires_at already ten seconds in the past,
refuting the universal claim. -/
theorem c4_counterexample :
    (get_access_token 1000000 (some staleTokenFile) (some negExpiryResp)
        none none).token = some "new-token" ∧
    (get_access_token 1000000 (some staleTokenFile) (some negExpiryResp)
        none none).persisted =
      some ⟨some "new-token", some "refresh-1", .valid 999990⟩ ∧
    ((999990 : Int) < 1000000) := by
  refine ⟨by decide, by decide, by decide⟩

lemma resolveViaAuthCode_spec (now : Int) (tfo : Option TokenFileData)
    (ac : Option String) (er : Option TokenResp) :
    (resolveViaAuthCode now tfo ac er).fromStored = false ∧
    ((resolveViaAuthCode now tfo ac er).token.isSome = true →
      (∀ tr, er = some tr → 0 ≤ tr.expires_in.getD 3600) →
      ∃ d v, (resolveViaAuthCode now tfo ac er).persisted = some d ∧
        d.expires_at = .valid v ∧ now ≤ v) := by
  unfold resolveViaAuthCode
  rcases ac with _ | c
  · simp
  · rcases er with _ | tr
    · simp [exchange_code_for_token]
    · simp only [exchange_code_for_token]
      refine ⟨by trivial, ?_⟩
      intro _ h
      refine ⟨_, now + tr.expires_in.getD 3600, rfl, rfl, ?_⟩
      have := h tr rfl
      omega

/-- C4 amended: the resolver returns the stored access token unchanged only
when the stored expires_at is more than one hour past now, hence never a
stored token already expired; every other token it returns was freshly
persisted with expires_at equal to now plus the expires_in reported by the
token endpoint, which is not in the past whenever the endpoint reports a
non-negative expires_in. -/
theorem c4_token_validity :
    ∀ (now : Int) (tfo : Option TokenFileData) (rr : Option TokenResp)
      (ac : Option String) (er : Option TokenResp),
      ((get_access_token now tfo rr ac er).fromStored = true →
        ∃ d, tfo = some d ∧
          (get_access_token now tfo rr ac er).token = d.access_token ∧
          now + 3600 < expiryValue d.expires_at) ∧
      ((get_access_token now tfo rr ac er).fromStored = false →
        (get_access_token now tfo rr ac er).token.isSome = true →
        (∀ tr, rr = some tr → 0 ≤ tr.expires_in.getD 3600) →
        (∀ tr, er = some tr → 0 ≤ tr.expires_in.getD 3600) →
        ∃ d v, (get_access_token now tfo rr ac er).persisted = some d ∧
          d.expires_at = .valid v ∧ now ≤ v) := by
  intro now tfo rr ac er
  have hfb := resolveViaAuthCode_spec now tfo ac er
  rcases tfo with _ | d
  · unfold get_access_token
    exact ⟨fun h => absurd h (by rw [hfb.1]; simp), fun _ ht _ her => hfb.2 ht her⟩
  · rcases hexp : d.expires_at with _ | _ | v
    all_goals unfold get_access_token
    · simp only [hexp]
      by_cases hlt : expiryValue ExpiryField.missing > now + 3600
      · simp only [if_pos hlt]
        rcases hat : d.access_token with _ | tok
        · exact ⟨fun h => absurd h (by rw [hfb.1]; simp),
                 fun _ ht _ her => hfb.2 ht her⟩
        · refine ⟨fun _ => ⟨d, rfl, by rw [hat], by rw [hexp]; exact hlt⟩, ?_⟩
          intro hfs
          simp at hfs
      · simp only [if_neg hlt]
        rcases hrt : d.refresh_token with _ | rt
        · exact ⟨fun h => absurd h (by rw [hfb.1]; simp),
                 fun _ ht _ her => hfb.2 ht her⟩
        · rcases hrr2 : rr with _ | tr
          · simp only [refresh_access_token]
            exact ⟨fun h => absurd h (by rw [hfb.1]; simp),
                   fun _ ht _ her => hfb.2 ht her⟩
          · simp only [refresh_access_token]
            refine ⟨by intro h; simp at h, ?_⟩
            intro _ _ hrge _
            refine ⟨_, now + tr.expires_in.getD 3600, rfl, rfl, ?_⟩
            have := hrge tr rfl
            omega
    · simp only [hexp]
      exact ⟨fun h => absurd h (by rw [hfb.1]; simp),
             fun _ ht _ her => hfb.2 ht her⟩
    · simp only [hexp]
      by_cases hlt : expiryValue (ExpiryField.valid v) > now + 3600
      · simp only [if_pos hlt]
        rcases hat : d.access_token with _ | tok
        · exact ⟨fun h => absurd h (by rw [hfb.1]; simp),
                 fun _ ht _ her => hfb.2 ht her⟩
        · refine ⟨fun _ => ⟨d, rfl, by rw [hat], by rw [hexp]; exact hlt⟩, ?_⟩
          intro hfs
          simp at hfs
      · simp only [if_neg hlt]
        rcases hrt : d.refresh_token with _ | rt
        · exact ⟨fun h => absurd h (by rw [hfb.1]; simp),
                 fun _ ht _ her => hfb.2 ht her⟩
        · rcases hrr2 : rr with _ | tr
          · simp only [refresh_access_token]
            exact ⟨fun h => absurd h (by rw [hfb.1]; simp),
                   fun _ ht _ her => hfb.2 ht her⟩
          · simp only [refresh_access_token]
            refine ⟨by intro h; simp at h, ?_⟩
            intro _ _ hrge _
            refine ⟨_, now + tr.expires_in.getD 3600, rfl, rfl, ?_⟩
            have := hrge tr rfl
            omega

/-- C4 witness: a stored record expiring far in the future is returned
unchanged with its expiry still ahead. -/
theorem c4_token_validity_witness :
    ∃ d, (some freshTokenFile : Option TokenFileData) = some d ∧
      (get_access_token 0 (some freshTokenFile) none none none).token =
        d.access_token ∧
      (0 : Int) + 3600 < expiryValue d.expires_at :=
  (c4_token_validity 0 (some freshTokenFile) none none none).1 (by decide)

/-- C5: the claim states that both signing routines percent-encode every
parameter key and value with all reserved characters, the slash included,
escaped.  In the posting-script routine the Python quote default keeps the
slash verbatim, so the value a slash b enters the parameter string
unescaped; in the token-helper routine the key is inserted verbatim, so a
key containing a slash and a space enters the parameter string raw, while
only the value is encoded.  Both outputs refute the claim at these concrete
inputs. -/
theorem c5_counterexample :
    headerParamString [("body", "a/b")] = "body=a/b" ∧
    helperParamString [("k/x", "v w")] = "k/x=v%20w" ∧
    pyQuote "/" "/" = "/" := by
  refine ⟨by decide, by decide, by decide⟩

/-- C5 amended: a single ASCII character survives the encoding used on
values by the token-helper routine, quote with an empty safe string,
exactly when it is unreserved per the OAuth rules, an alphanumeric or one
of hyphen, period, underscore, tilde; under the encoding used by the
posting-script routine, quote with the Python default safe string, it
survives exactly when it is unreserved or the slash, so the slash is never
escaped there, and keys of the token-helper routine are not encoded at
all. -/
theorem c5_encoding_characterization :
    ∀ b : Nat, b < 128 →
      ((pyQuote "" ⟨[Char.ofNat b]⟩ = ⟨[Char.ofNat b]⟩ ↔
          isUnreservedByte b = true) ∧
       (pyQuote "/" ⟨[Char.ofNat b]⟩ = ⟨[Char.ofNat b]⟩ ↔
          (isUnreservedByte b = true ∨ b = 47))) := by
  decide

/-- C5 witness: the slash itself, byte 47, is escaped by the helper
encoding and kept by the posting-script encoding. -/
theorem c5_encoding_characterization_witness :
    (pyQuote "" ⟨[Char.ofNat 47]⟩ = ⟨[Char.ofNat 47]⟩ ↔
        isUnreservedByte 47 = true) ∧
    (pyQuote "/" ⟨[Char.ofNat 47]⟩ = ⟨[Char.ofNat 47]⟩ ↔
        (isUnreservedByte 47 = true ∨ 47 = 47)) :=
  c5_encoding_characterization 47 (by decide)
